import Mathlib

/-!
Verification of the vision core of the worldmicroscope repository
(services/vision: alignment, sharpness mapping, focus-stack merging,
fingerprinting).

Modelling conventions.
* A frame (the DOM ImageData) is a width, a height and a total function
  from flat byte index to byte value; RGBA bytes are packed as in the
  source, byte `(y*width+x)*4 + c` holding channel `c` of pixel `(x,y)`.
* JS numbers are modelled exactly: integer-valued buffers by `Nat`,
  FLoat arithmetic whose operands stay small integers or small-denominator
  rationals by `Rat` (exact for every value the relevant code paths
  produce), and gradient magnitudes, scores and offsets by `Real`
  (`Real.sqrt` standing for `Math.sqrt`).
* Typed arrays are zero-initialised, so a buffer produced by a loop that
  writes only interior pixels is the function that returns the written
  formula on the interior and 0 elsewhere.
* The value `Infinity` that `minDiff` starts from in `alignFrames` is
  modelled by `Option ℝ` with `none` standing for `Infinity`; the single
  code path reachable with `minDiff = Infinity` is spelled out (and
  justified) at its use site.
-/

open scoped Classical

/-- A frame: RGBA bytes in row-major packed layout, as in ImageData. -/
structure ImageData where
  width : ℕ
  height : ℕ
  data : ℕ → ℕ

/-- SETTINGS.ALIGNMENT_DOWNSAMPLE. -/
def ALIGNMENT_DOWNSAMPLE : ℕ := 128

/-- SETTINGS.SEARCH_WINDOW. -/
def SEARCH_WINDOW : ℕ := 40

/-- SETTINGS.SHARPNESS_THRESHOLD. -/
def SHARPNESS_THRESHOLD : ℝ := 20

/-- The crop-ratio setting (0.6 in the source SETTINGS record). -/
def cropRatio : ℚ := 0.6

/-- SETTINGS.DRIFT_DEADBAND. -/
def DRIFT_DEADBAND : ℝ := 0.8

/-- SETTINGS.FINGERPRINT_SIZE. -/
def FINGERPRINT_SIZE : ℕ := 16

/-- Conversion applied by an assignment into a Uint8Array
(truncate toward zero, then take the low 8 bits); every value the
source stores is nonnegative, where truncation agrees with `Int.floor`. -/
def toUint8 (q : ℚ) : ℕ := (Int.toNat ⌊q⌋) % 256

/-- Modelled from the spec: the source implements this crop-and-resize with
OffscreenCanvas.drawImage, whose resampling filter is platform code that is
not part of this repository.  The crop rectangle, the output width and the
output height follow the source and spec §4.1 exactly (centered crop of
cropRatio in each dimension, target height = round(cropH * ratio)); the
missing resampling kernel is modelled as nearest-neighbour point sampling
at output pixel centres.  Every claim that depends on resampled CONTENT is
only used on constant-colour frames, for which any resampling filter
produces the same constant output. -/
def resizeAndCropImageData (src : ImageData) (targetWidth : ℕ) : ImageData :=
  let cropW : ℚ := (src.width : ℚ) * cropRatio
  let cropH : ℚ := (src.height : ℚ) * cropRatio
  let cropX : ℚ := ((src.width : ℚ) - cropW) / 2
  let cropY : ℚ := ((src.height : ℚ) - cropH) / 2
  let ratio : ℚ := (targetWidth : ℚ) / cropW
  let targetHeight : ℕ := Int.toNat (round (cropH * ratio))
  { width := targetWidth
    height := targetHeight
    data := fun b =>
      let t := b / 4
      let c := b % 4
      let x := t % targetWidth
      let y := t / targetWidth
      let sx : ℤ := ⌊cropX + ((x : ℚ) + 1/2) * (cropW / (targetWidth : ℚ))⌋
      let sy : ℤ := ⌊cropY + ((y : ℚ) + 1/2) * (cropH / (targetHeight : ℚ))⌋
      src.data ((sy.toNat * src.width + sx.toNat) * 4 + c) }

/-- toGrayscale: luma weights 0.299/0.587/0.114 on the RGB channels,
stored into a Uint8Array. -/
def toGrayscale (d : ImageData) : ℕ → ℕ := fun i =>
  toUint8 (0.299 * (d.data (i * 4) : ℚ) + 0.587 * (d.data (i * 4 + 1) : ℚ)
    + 0.114 * (d.data (i * 4 + 2) : ℚ))

/-- fastBlur: unweighted 3x3 mean over the interior, zero border
(the output Uint8Array is zero-initialised and only interior pixels are
written). -/
def fastBlur (pixels : ℕ → ℕ) (width height : ℕ) : ℕ → ℕ := fun idx =>
  let x := idx % width
  let y := idx / width
  if 1 ≤ x ∧ x < width - 1 ∧ 1 ≤ y ∧ y < height - 1 then
    toUint8 (((pixels (idx - width - 1) + pixels (idx - width) + pixels (idx - width + 1)
      + pixels (idx - 1) + pixels idx + pixels (idx + 1)
      + pixels (idx + width - 1) + pixels (idx + width) + pixels (idx + width + 1) : ℕ) : ℚ) / 9)
  else 0

/-- computeEdgeMap: 3x3 Sobel gradient magnitude over the interior, zero
border (the output Float32Array is zero-initialised and only interior
pixels are written).  The inputs are Uint8 values, so gx and gy are exact
integers in JS floats as well. -/
noncomputable def computeEdgeMap (pixels : ℕ → ℕ) (width height : ℕ) : ℕ → ℝ := fun idx =>
  let x := idx % width
  let y := idx / width
  if 1 ≤ x ∧ x < width - 1 ∧ 1 ≤ y ∧ y < height - 1 then
    let gx : ℤ :=
      -(pixels (idx - width - 1) : ℤ) + (pixels (idx - width + 1) : ℤ)
      - 2 * (pixels (idx - 1) : ℤ) + 2 * (pixels (idx + 1) : ℤ)
      - (pixels (idx + width - 1) : ℤ) + (pixels (idx + width + 1) : ℤ)
    let gy : ℤ :=
      -(pixels (idx - width - 1) : ℤ) - 2 * (pixels (idx - width) : ℤ)
      - (pixels (idx - width + 1) : ℤ)
      + (pixels (idx + width - 1) : ℤ) + 2 * (pixels (idx + width) : ℤ)
      + (pixels (idx + width + 1) : ℤ)
    Real.sqrt ((gx : ℝ) * (gx : ℝ) + (gy : ℝ) * (gy : ℝ))
  else 0

/-- Number of iterations of `for (v = padding; v < extent - padding; v += 2)`
with padding = SEARCH_WINDOW + 2, as run by the scoring loops of
alignFrames along one axis of the given extent. -/
def sampleCount (extent : ℕ) : ℕ := (extent - 2 * (SEARCH_WINDOW + 2) + 1) / 2

/-- The positions visited by that loop, in order. -/
def samplePositions (extent : ℕ) : List ℕ :=
  (List.range (sampleCount extent)).map (fun k => SEARCH_WINDOW + 2 + 2 * k)

/-- The number of samples (`count` in the source) accumulated for one
candidate offset in alignFrames; it does not depend on the offset, the
inner loops visit the same (y, x) grid for every (dy, dx). -/
def alignCount (height : ℕ) : ℕ :=
  sampleCount height * sampleCount ALIGNMENT_DOWNSAMPLE

/-- The edge map alignFrames builds for one input frame: crop+downsample to
the alignment resolution, grayscale, blur, Sobel (each map is built with
width ALIGNMENT_DOWNSAMPLE and the height of its own downsampled frame). -/
noncomputable def alignEdge (frame : ImageData) : ℕ → ℝ :=
  let small := resizeAndCropImageData frame ALIGNMENT_DOWNSAMPLE
  computeEdgeMap (fastBlur (toGrayscale small) small.width small.height)
    small.width small.height

/-- The sum-of-squared-differences score (`diff` in the source) of one
candidate offset (dx, dy): edgePrev is read at idx1 = y*width + x, edgeCurr
at idx2 = (y+dy)*width + (x+dx), over the padded, 2-subsampled grid.  The
scan grid keeps y+dy and x+dx at least 2, so the `Int.toNat` coordinates
agree with the flat JS index arithmetic. -/
noncomputable def alignDiff (prev curr : ImageData) (dx dy : ℤ) : ℝ :=
  let width := ALIGNMENT_DOWNSAMPLE
  let height := (resizeAndCropImageData prev ALIGNMENT_DOWNSAMPLE).height
  ((samplePositions height).map (fun y =>
    ((samplePositions width).map (fun x =>
      let idx1 := y * width + x
      let idx2 := ((y : ℤ) + dy).toNat * width + ((x : ℤ) + dx).toNat
      let d := alignEdge prev idx1 - alignEdge curr idx2
      d * d)).sum)).sum

/-- The candidate offsets (dx, dy), in the scan order of the source: dy in
the outer loop ascending from -SEARCH_WINDOW, dx in the inner loop
ascending from -SEARCH_WINDOW. -/
def windowOffsets : List (ℤ × ℤ) :=
  (List.range (2 * SEARCH_WINDOW + 1)).flatMap (fun (j : ℕ) =>
    (List.range (2 * SEARCH_WINDOW + 1)).map (fun (i : ℕ) =>
      ((i : ℤ) - SEARCH_WINDOW, (j : ℤ) - SEARCH_WINDOW)))

/-- The running state of the exhaustive search: best offset so far and the
minimum score so far (`none` standing for the initial JS `Infinity`). -/
structure SearchState where
  bestX : ℤ
  bestY : ℤ
  minDiff : Option ℝ

/-- One iteration of the scan: if this offset sampled at least one pixel,
keep it when its score is strictly below the minimum so far (any finite
score is below the initial `Infinity`). -/
noncomputable def scanStep (count : ℕ) (f : ℤ × ℤ → ℝ) (s : SearchState) (o : ℤ × ℤ) :
    SearchState :=
  if 0 < count then
    match s.minDiff with
    | none => ⟨o.1, o.2, some (f o)⟩
    | some m => if f o < m then ⟨o.1, o.2, some (f o)⟩ else s
  else s

/-- The full exhaustive search of alignFrames. -/
noncomputable def alignSearch (prev curr : ImageData) : SearchState :=
  windowOffsets.foldl
    (scanStep (alignCount (resizeAndCropImageData prev ALIGNMENT_DOWNSAMPLE).height)
      (fun o => alignDiff prev curr o.1 o.2))
    ⟨0, 0, none⟩

/-- The sparse score table of alignFrames: an entry exists exactly for the
offsets the scan visited with count > 0, holding that offset's score. -/
noncomputable def alignScores (prev curr : ImageData) (dx dy : ℤ) : Option ℝ :=
  if -(SEARCH_WINDOW : ℤ) ≤ dx ∧ dx ≤ (SEARCH_WINDOW : ℤ)
      ∧ -(SEARCH_WINDOW : ℤ) ≤ dy ∧ dy ≤ (SEARCH_WINDOW : ℤ)
      ∧ 0 < alignCount (resizeAndCropImageData prev ALIGNMENT_DOWNSAMPLE).height then
    some (alignDiff prev curr dx dy)
  else none

/-- The result record of alignFrames. -/
structure AlignmentResult where
  x : ℝ
  y : ℝ
  confidence : ℝ

/-- alignFrames.  The `none` case is the JS run in which `minDiff` is still
`Infinity` after the scan (no offset sampled a pixel): there the score
table is empty, every neighbour lookup falls back to `Infinity`, both
curvature denominators are `Infinity - 2*Infinity + Infinity = NaN`, both
`Math.abs(denom) > 1e-5` guards are false on NaN, so the unrefined
`bestX = bestY = 0` is kept, `dist = 0` is inside the deadband and the
offset snaps to (0,0), and `confidence = max(0, 1 - Infinity/...) = 0`. -/
noncomputable def alignFrames (prev curr : ImageData) : AlignmentResult :=
  let w := ALIGNMENT_DOWNSAMPLE
  let cropW : ℚ := (prev.width : ℚ) * cropRatio
  let scale : ℝ := (cropW : ℝ) / (w : ℝ)
  let height := (resizeAndCropImageData prev w).height
  let s := alignSearch prev curr
  s.minDiff.elim ⟨0, 0, 0⟩ (fun v0 =>
    let vxMinus := (alignScores prev curr (s.bestX - 1) s.bestY).getD v0
    let vxPlus := (alignScores prev curr (s.bestX + 1) s.bestY).getD v0
    let vyMinus := (alignScores prev curr s.bestX (s.bestY - 1)).getD v0
    let vyPlus := (alignScores prev curr s.bestX (s.bestY + 1)).getD v0
    let denomX := vxMinus - 2 * v0 + vxPlus
    let denomY := vyMinus - 2 * v0 + vyPlus
    let subPixelX : ℝ :=
      (s.bestX : ℝ) + (if 1e-5 < |denomX| then (vxMinus - vxPlus) / (2 * denomX) else 0)
    let subPixelY : ℝ :=
      (s.bestY : ℝ) + (if 1e-5 < |denomY| then (vyMinus - vyPlus) / (2 * denomY) else 0)
    let finalX := subPixelX * scale
    let finalY := subPixelY * scale
    let dist := Real.sqrt (finalX * finalX + finalY * finalY)
    let confidence := max 0 (1 - v0 / ((w : ℝ) * (height : ℝ) * 100))
    ⟨if dist < DRIFT_DEADBAND then 0 else finalX,
     if dist < DRIFT_DEADBAND then 0 else finalY,
     confidence⟩)

/-- computeSharpnessMap: per-pixel gradient-magnitude proxy at full
resolution; gh/gv are the absolute red-channel differences of the
horizontal/vertical neighbours (byte offsets ±4 and ±width*4 from the red
byte of the pixel), zero on the border (the Float32Array is
zero-initialised and only interior pixels are written). -/
noncomputable def computeSharpnessMap (pixels : ℕ → ℕ) (width height : ℕ) : ℕ → ℝ := fun t =>
  let x := t % width
  let y := t / width
  if 1 ≤ x ∧ x < width - 1 ∧ 1 ≤ y ∧ y < height - 1 then
    let idx := t * 4
    let gh : ℤ := |(pixels (idx - 4) : ℤ) - (pixels (idx + 4) : ℤ)|
    let gv : ℤ := |(pixels (idx - width * 4) : ℤ) - (pixels (idx + width * 4) : ℤ)|
    Real.sqrt ((gh : ℝ) * (gh : ℝ) + (gv : ℝ) * (gv : ℝ))
  else 0

/-- Which branch of the per-pixel merge logic of mergeFocusStack fires at
output pixel t: 3 = take the new pixel, 4 = force transparent,
5 = keep the sharp old pixel, 0 = sampled position out of bounds (or t
beyond the buffer), accumulator passes through.  The branch conditions are
those of the source and do not consult debugMode. -/
noncomputable def mergeCase (accImageData : ImageData) (accSharpness : ℕ → ℝ)
    (newImageData : ImageData) (offsetX offsetY sensitivity threshold : ℝ)
    (t : ℕ) : ℕ :=
  let width := accImageData.width
  let height := accImageData.height
  let x := t % width
  let y := t / width
  let srcX : ℤ := round ((x : ℝ) + offsetX)
  let srcY : ℤ := round ((y : ℝ) + offsetY)
  if 0 ≤ srcX ∧ srcX < (width : ℤ) ∧ 0 ≤ srcY ∧ srcY < (height : ℤ) ∧ t < width * height then
    let srcIdx := srcY.toNat * width + srcX.toNat
    let newVal := computeSharpnessMap newImageData.data width height srcIdx
    let oldVal := accSharpness t
    if threshold < newVal ∧ (oldVal + sensitivity < newVal ∨ ¬ threshold < oldVal) then 3
    else if ¬ threshold < oldVal then 4
    else 5
  else 0

/-- The flat index in the new frame sampled for output pixel t
(`srcIdx = srcY * width + srcX` in the source); meaningful whenever
`mergeCase` is not 0, where both rounded coordinates are nonnegative. -/
noncomputable def mergeSrcIdx (accImageData : ImageData) (offsetX offsetY : ℝ) (t : ℕ) : ℕ :=
  let width := accImageData.width
  (round (((t / width : ℕ) : ℝ) + offsetY)).toNat * width
    + (round (((t % width : ℕ) : ℝ) + offsetX)).toNat

/-- The result of mergeFocusStack: the merged RGBA bytes and the merged
sharpness map. -/
structure MergeResult where
  data : ℕ → ℕ
  sharpness : ℕ → ℝ

/-- mergeFocusStack.  The source first copies the accumulator into the
result buffers and then runs one loop writing each output pixel at most
once, reading only the precopied sharpness at that same pixel and the new
frame; the loop is therefore a per-pixel map, written here as such (scan
order is immaterial).  Branch 3 takes the new pixel (debug: magenta) and
its sharpness; branch 4 zeroes the alpha byte and the sharpness, leaving
RGB as copied; branch 5 keeps the copied pixel (debug: magenta); branch 0
keeps the accumulator bytes and sharpness. -/
noncomputable def mergeFocusStack (accImageData : ImageData) (accSharpness : ℕ → ℝ)
    (newImageData : ImageData) (offsetX offsetY sensitivity threshold : ℝ)
    (debugMode : Bool) : MergeResult :=
  let width := accImageData.width
  let height := accImageData.height
  let newSharpness := computeSharpnessMap newImageData.data width height
  { data := fun b =>
      let t := b / 4
      let c := b % 4
      let k := mergeCase accImageData accSharpness newImageData offsetX offsetY
        sensitivity threshold t
      if k = 3 then
        if debugMode then (if c = 1 then 0 else 255)
        else if c = 3 then 255
        else newImageData.data (mergeSrcIdx accImageData offsetX offsetY t * 4 + c)
      else if k = 4 then
        if c = 3 then 0 else accImageData.data b
      else if k = 5 then
        if debugMode then (if c = 1 then 0 else 255) else accImageData.data b
      else accImageData.data b
    sharpness := fun t =>
      let k := mergeCase accImageData accSharpness newImageData offsetX offsetY
        sensitivity threshold t
      if k = 3 then newSharpness (mergeSrcIdx accImageData offsetX offsetY t)
      else if k = 4 then 0
      else accSharpness t }

/-- getFingerprintSimilarity.  A JS read past the end of fp2 yields
`undefined`, the subtraction then yields NaN and NaN absorbs the running
sum and the final expression; NaN (and the infinite 1 - diff/0 when fp1 is
empty) is modelled by `none`.  The loop bound is fp1.length, so fp1 reads
are always in range and extra entries of fp2 are silently ignored. -/
def getFingerprintSimilarity (fp1 fp2 : List ℕ) : Option ℚ :=
  let diff : Option ℚ := (List.range fp1.length).foldl
    (fun acc i =>
      match acc, fp2.get? i with
      | some d, some v => some (d + |((fp1.getD i 0 : ℚ)) - (v : ℚ)|)
      | _, _ => none)
    (some 0)
  match diff with
  | none => none
  | some d =>
    if ((fp1.length : ℚ) * 255) = 0 then none
    else some (1 - d / ((fp1.length : ℚ) * 255))

/-- A solid frame: every pixel has RGB = (v, v, v) and alpha 255. -/
def solidFrame (w h v : ℕ) : ImageData :=
  ⟨w, h, fun b => if b % 4 = 3 then 255 else v⟩

/-! ### Generic facts about the exhaustive search fold -/

/-- With count = 0 no score is ever recorded and the scan leaves its state
untouched. -/
lemma foldl_scanStep_count_zero (f : ℤ × ℤ → ℝ) :
    ∀ (l : List (ℤ × ℤ)) (s : SearchState), l.foldl (scanStep 0 f) s = s := by
  intro l
  induction l with
  | nil => intro s; rfl
  | cons a t ih =>
    intro s
    have hstep : scanStep 0 f s a = s := by simp [scanStep]
    simp [List.foldl_cons, hstep, ih]

/-- Any minimum the scan reports is one of the candidate scores (stated as:
nonnegativity of the scores is preserved into the reported minimum). -/
lemma foldl_scanStep_minDiff_nonneg (c : ℕ) (f : ℤ × ℤ → ℝ) :
    ∀ (l : List (ℤ × ℤ)) (s : SearchState),
      (∀ m, s.minDiff = some m → 0 ≤ m) → (∀ o ∈ l, 0 ≤ f o) →
      ∀ m, (l.foldl (scanStep c f) s).minDiff = some m → 0 ≤ m := by
  intro l
  induction l with
  | nil => intro s hs _ m hm; exact hs m hm
  | cons a t ih =>
    intro s hs hl m hm
    have ha : 0 ≤ f a := hl a (List.mem_cons_self a t)
    have hstep : ∀ m, (scanStep c f s a).minDiff = some m → 0 ≤ m := by
      intro m' hm'
      by_cases hc : 0 < c
      · rcases hsd : s.minDiff with _ | v
        · simp [scanStep, hc, hsd] at hm'
          exact hm' ▸ ha
        · by_cases hlt : f a < v
          · simp [scanStep, hc, hsd, hlt] at hm'
            exact hm' ▸ ha
          · simp [scanStep, hc, hsd, hlt] at hm'
            exact hm' ▸ hs v hsd
      · simp [scanStep, hc] at hm'
        exact hs m' hm'
    exact ih (scanStep c f s a) hstep (fun o ho => hl o (List.mem_cons_of_mem a ho)) m hm

/-- Indexing a cons cell at a successor position. -/
lemma getConsSucc {α : Type} (a : α) (l : List α) (k : ℕ) (h : k + 1 < (a :: l).length) :
    (a :: l).get ⟨k + 1, h⟩ = l.get ⟨k, Nat.lt_of_succ_lt_succ h⟩ := rfl

/-- Folding the scan onward from an already-recorded best candidate b:
either no later candidate strictly beats b (and the state is unchanged), or
the final state holds the first candidate whose score undercuts both b and
every score scanned before it.  This is the strict-less-than update rule of
the source: ties never displace the incumbent. -/
lemma foldl_scanStep_some (c : ℕ) (hc : 0 < c) (f : ℤ × ℤ → ℝ) :
    ∀ (l : List (ℤ × ℤ)) (b : ℤ × ℤ),
      (l.foldl (scanStep c f) ⟨b.1, b.2, some (f b)⟩ = ⟨b.1, b.2, some (f b)⟩
          ∧ ∀ o ∈ l, f b ≤ f o)
      ∨ ∃ k : ℕ, ∃ hk : k < l.length,
          l.foldl (scanStep c f) ⟨b.1, b.2, some (f b)⟩
              = ⟨(l.get ⟨k, hk⟩).1, (l.get ⟨k, hk⟩).2, some (f (l.get ⟨k, hk⟩))⟩
            ∧ f (l.get ⟨k, hk⟩) < f b
            ∧ (∀ j : ℕ, ∀ hj : j < l.length, j < k → f (l.get ⟨k, hk⟩) < f (l.get ⟨j, hj⟩))
            ∧ ∀ o ∈ l, f (l.get ⟨k, hk⟩) ≤ f o := by
  intro l
  induction l with
  | nil => intro b; left; exact ⟨rfl, by simp⟩
  | cons a t ih =>
    intro b
    by_cases hab : f a < f b
    · have hstep : scanStep c f ⟨b.1, b.2, some (f b)⟩ a = ⟨a.1, a.2, some (f a)⟩ := by
        simp [scanStep, hc, hab]
      rcases ih a with ⟨heq, hall⟩ | ⟨k, hk, heq, hlt, hbef, hall⟩
      · right
        refine ⟨0, by simp, ?_, hab, ?_, ?_⟩
        · simpa [List.foldl_cons, hstep] using heq
        · intro j hj hj0; omega
        · intro o ho
          rcases List.mem_cons.mp ho with rfl | ho
          · exact le_refl _
          · exact hall o ho
      · right
        refine ⟨k + 1, Nat.succ_lt_succ hk, ?_, lt_trans hlt hab, ?_, ?_⟩
        · rw [List.foldl_cons, hstep, getConsSucc]
          exact heq
        · intro j hj hjk
          rcases j with _ | j'
          · rw [getConsSucc]
            exact hlt
          · rw [getConsSucc, getConsSucc]
            exact hbef j' (Nat.lt_of_succ_lt_succ hj) (Nat.lt_of_succ_lt_succ hjk)
        · intro o ho
          rcases List.mem_cons.mp ho with rfl | ho
          · rw [getConsSucc]; exact le_of_lt hlt
          · rw [getConsSucc]; exact hall o ho
    · have hstep : scanStep c f ⟨b.1, b.2, some (f b)⟩ a = ⟨b.1, b.2, some (f b)⟩ := by
        simp [scanStep, hc, hab]
      rcases ih b with ⟨heq, hall⟩ | ⟨k, hk, heq, hlt, hbef, hall⟩
      · left
        constructor
        · rw [List.foldl_cons, hstep]; exact heq
        · intro o ho
          rcases List.mem_cons.mp ho with rfl | ho
          · exact le_of_not_lt hab
          · exact hall o ho
      · right
        refine ⟨k + 1, Nat.succ_lt_succ hk, ?_, hlt, ?_, ?_⟩
        · rw [List.foldl_cons, hstep, getConsSucc]
          exact heq
        · intro j hj hjk
          rcases j with _ | j'
          · rw [getConsSucc]
            exact lt_of_lt_of_le hlt (le_of_not_lt hab)
          · rw [getConsSucc, getConsSucc]
            exact hbef j' (Nat.lt_of_succ_lt_succ hj) (Nat.lt_of_succ_lt_succ hjk)
        · intro o ho
          rcases List.mem_cons.mp ho with rfl | ho
          · rw [getConsSucc]
            exact le_of_lt (lt_of_lt_of_le hlt (le_of_not_lt hab))
          · rw [getConsSucc]; exact hall o ho

/-- Running the whole scan from the initial state (0, 0, Infinity) on a
nonempty candidate list with count > 0: the final state holds the first
candidate whose score is minimal, with a strictly larger score at every
earlier candidate. -/
lemma foldl_scanStep_firstMin (c : ℕ) (hc : 0 < c) (f : ℤ × ℤ → ℝ)
    (l : List (ℤ × ℤ)) (hl : 0 < l.length) :
    ∃ k : ℕ, ∃ hk : k < l.length,
      l.foldl (scanStep c f) ⟨0, 0, none⟩
          = ⟨(l.get ⟨k, hk⟩).1, (l.get ⟨k, hk⟩).2, some (f (l.get ⟨k, hk⟩))⟩
        ∧ (∀ j : ℕ, ∀ hj : j < l.length, j < k → f (l.get ⟨k, hk⟩) < f (l.get ⟨j, hj⟩))
        ∧ ∀ o ∈ l, f (l.get ⟨k, hk⟩) ≤ f o := by
  rcases l with _ | ⟨a, t⟩
  · simp at hl
  · have hstep : scanStep c f ⟨0, 0, none⟩ a = ⟨a.1, a.2, some (f a)⟩ := by
      simp [scanStep, hc]
    rcases foldl_scanStep_some c hc f t a with ⟨heq, hall⟩ | ⟨k, hk, heq, hlt, hbef, hall⟩
    · refine ⟨0, by simp, ?_, ?_, ?_⟩
      · rw [List.foldl_cons, hstep]; exact heq
      · intro j hj hj0; omega
      · intro o ho
        rcases List.mem_cons.mp ho with rfl | ho
        · exact le_refl _
        · exact hall o ho
    · refine ⟨k + 1, Nat.succ_lt_succ hk, ?_, ?_, ?_⟩
      · rw [List.foldl_cons, hstep, getConsSucc]
        exact heq
      · intro j hj hjk
        rcases j with _ | j'
        · rw [getConsSucc]
          exact hlt
        · rw [getConsSucc, getConsSucc]
          exact hbef j' (Nat.lt_of_succ_lt_succ hj) (Nat.lt_of_succ_lt_succ hjk)
      · intro o ho
        rcases List.mem_cons.mp ho with rfl | ho
        · rw [getConsSucc]
          exact le_of_lt hlt
        · rw [getConsSucc]; exact hall o ho

/-- Every candidate score is a sum of squares, hence nonnegative. -/
lemma alignDiff_nonneg (prev curr : ImageData) (dx dy : ℤ) :
    0 ≤ alignDiff prev curr dx dy := by
  unfold alignDiff
  apply List.sum_nonneg
  intro a ha
  rw [List.mem_map] at ha
  obtain ⟨y, _, rfl⟩ := ha
  apply List.sum_nonneg
  intro b hb
  rw [List.mem_map] at hb
  obtain ⟨x, _, rfl⟩ := hb
  exact mul_self_nonneg _

/-- Any minimum reported by the full search is nonnegative. -/
lemma alignSearch_minDiff_nonneg (prev curr : ImageData) (m : ℝ)
    (h : (alignSearch prev curr).minDiff = some m) : 0 ≤ m := by
  refine foldl_scanStep_minDiff_nonneg _ _ windowOffsets ⟨0, 0, none⟩ ?_ ?_ m h
  · intro m' hm'
    simp at hm'
  · intro o _
    exact alignDiff_nonneg prev curr o.1 o.2

/-- C8: for every pair of input frames the confidence returned by
alignFrames lies in [0, 1].  In the scored case it is
max(0, 1 - minDiff/(width*height*100)) with minDiff a nonnegative sum of
squares, so it never leaves the interval; in the unscored (count = 0) case
the JS value is max(0, 1 - Infinity) = 0. -/
theorem alignFrames_confidence_in_unit_interval (prev curr : ImageData) :
    0 ≤ (alignFrames prev curr).confidence ∧ (alignFrames prev curr).confidence ≤ 1 := by
  rcases h : (alignSearch prev curr).minDiff with _ | v0
  · constructor <;> simp [alignFrames, h, Option.elim]
  · have hv0 : 0 ≤ v0 := alignSearch_minDiff_nonneg prev curr v0 h
    have hden : (0 : ℝ) ≤ (ALIGNMENT_DOWNSAMPLE : ℝ)
        * ((resizeAndCropImageData prev ALIGNMENT_DOWNSAMPLE).height : ℝ) * 100 := by
      positivity
    constructor
    · simp only [alignFrames, h, Option.elim]
      exact le_max_left _ _
    · simp only [alignFrames, h, Option.elim]
      apply max_le zero_le_one
      have : 0 ≤ v0 / ((ALIGNMENT_DOWNSAMPLE : ℝ)
          * ((resizeAndCropImageData prev ALIGNMENT_DOWNSAMPLE).height : ℝ) * 100) :=
        div_nonneg hv0 hden
      linarith

/-- Whatever the refined, rescaled offset is, the deadband step of
alignFrames either zeroes both components or leaves an offset of magnitude
at least the deadband. -/
lemma deadband_snap (fX fY : ℝ) :
    ((if Real.sqrt (fX * fX + fY * fY) < DRIFT_DEADBAND then (0 : ℝ) else fX) = 0 ∧
      (if Real.sqrt (fX * fX + fY * fY) < DRIFT_DEADBAND then (0 : ℝ) else fY) = 0) ∨
    DRIFT_DEADBAND ≤ Real.sqrt
      ((if Real.sqrt (fX * fX + fY * fY) < DRIFT_DEADBAND then (0 : ℝ) else fX)
          * (if Real.sqrt (fX * fX + fY * fY) < DRIFT_DEADBAND then (0 : ℝ) else fX)
        + (if Real.sqrt (fX * fX + fY * fY) < DRIFT_DEADBAND then (0 : ℝ) else fY)
          * (if Real.sqrt (fX * fX + fY * fY) < DRIFT_DEADBAND then (0 : ℝ) else fY)) := by
  by_cases hd : Real.sqrt (fX * fX + fY * fY) < DRIFT_DEADBAND
  · left
    constructor <;> simp [hd]
  · right
    simp only [hd, if_false]
    exact le_of_not_lt hd

/-- C7: the offset returned by alignFrames is either exactly (0, 0) or has
magnitude at least the drift deadband: the refined, rescaled offset is
snapped to zero on both components whenever sqrt(x*x + y*y) falls below
DRIFT_DEADBAND, and is returned unchanged otherwise. -/
theorem alignFrames_offset_deadband (prev curr : ImageData) :
    ((alignFrames prev curr).x = 0 ∧ (alignFrames prev curr).y = 0) ∨
      DRIFT_DEADBAND ≤ Real.sqrt ((alignFrames prev curr).x * (alignFrames prev curr).x
        + (alignFrames prev curr).y * (alignFrames prev curr).y) := by
  rcases h : (alignSearch prev curr).minDiff with _ | v0
  · left
    constructor <;> simp [alignFrames, h, Option.elim]
  · simp only [alignFrames, h, Option.elim]
    exact deadband_snap _ _

/-- C4: whenever the downsampled height is at most 2*(SEARCH_WINDOW + 2)
(e.g. 1280x720, which downsamples to height 72 while the padding is 42 on
each side), the scoring loop of alignFrames samples zero pixels for every
candidate offset, minDiff stays Infinity, and the function returns
x = 0, y = 0 and confidence = 0 regardless of image content. -/
theorem alignFrames_degenerate_height (prev curr : ImageData)
    (h : (resizeAndCropImageData prev ALIGNMENT_DOWNSAMPLE).height
      ≤ 2 * (SEARCH_WINDOW + 2)) :
    alignCount (resizeAndCropImageData prev ALIGNMENT_DOWNSAMPLE).height = 0 ∧
    (alignFrames prev curr).x = 0 ∧ (alignFrames prev curr).y = 0 ∧
    (alignFrames prev curr).confidence = 0 := by
  have h1 : sampleCount (resizeAndCropImageData prev ALIGNMENT_DOWNSAMPLE).height = 0 := by
    unfold sampleCount
    unfold SEARCH_WINDOW at h ⊢
    omega
  have hc : alignCount (resizeAndCropImageData prev ALIGNMENT_DOWNSAMPLE).height = 0 := by
    rw [alignCount, h1, zero_mul]
  have hsearch : alignSearch prev curr = ⟨0, 0, none⟩ := by
    unfold alignSearch
    rw [hc]
    exact foldl_scanStep_count_zero _ _ _
  have hsd : (alignSearch prev curr).minDiff = none := by rw [hsearch]
  refine ⟨hc, ?_, ?_, ?_⟩ <;> simp [alignFrames, hsd, Option.elim]

/-- The scan visits (2*SEARCH_WINDOW + 1)^2 candidate offsets. -/
lemma windowOffsets_length : windowOffsets.length = 6561 := by
  rw [windowOffsets, List.length_flatMap]
  simp only [Function.comp_def, List.length_map, List.length_range]
  rw [List.map_const', List.sum_replicate, List.length_range, smul_eq_mul]
  norm_num [SEARCH_WINDOW]

/-- The candidate offsets are exactly the integer points of the square
[-SEARCH_WINDOW, SEARCH_WINDOW]^2. -/
lemma mem_windowOffsets (o : ℤ × ℤ) : o ∈ windowOffsets ↔
    -40 ≤ o.1 ∧ o.1 ≤ 40 ∧ -40 ≤ o.2 ∧ o.2 ≤ 40 := by
  rcases o with ⟨dx, dy⟩
  simp only [windowOffsets, SEARCH_WINDOW, List.mem_flatMap, List.mem_map, List.mem_range]
  constructor
  · rintro ⟨j, hj, i, hi, heq⟩
    rw [Prod.mk.injEq] at heq
    obtain ⟨h1, h2⟩ := heq
    omega
  · rintro ⟨h1, h2, h3, h4⟩
    refine ⟨(dy + 40).toNat, by omega, (dx + 40).toNat, by omega, ?_⟩
    rw [Prod.mk.injEq]
    constructor <;> omega

/-- The first candidate in scan order is (dx, dy) = (-40, -40). -/
lemma windowOffsets_get_zero (h : 0 < windowOffsets.length) :
    windowOffsets.get ⟨0, h⟩ = (-40, -40) := rfl

/-- C2: with a nonempty sample grid, the offset selected by the exhaustive
search of alignFrames is the first candidate in scan order (dy outer
ascending from -SEARCH_WINDOW, dx inner ascending, the enumeration
windowOffsets) that attains the minimal score: its score is a lower bound
for every candidate in the window, and every candidate scanned strictly
before it has a strictly larger score (the strict-less-than update never
lets a tie displace the incumbent, so ties are resolved by scan order and
not by proximity to (0, 0)). -/
theorem alignSearch_first_minimum (prev curr : ImageData)
    (h : 0 < alignCount (resizeAndCropImageData prev ALIGNMENT_DOWNSAMPLE).height) :
    ∃ k : ℕ, ∃ hk : k < windowOffsets.length,
      ((alignSearch prev curr).bestX, (alignSearch prev curr).bestY)
          = windowOffsets.get ⟨k, hk⟩
        ∧ (alignSearch prev curr).minDiff
            = some (alignDiff prev curr (alignSearch prev curr).bestX
                (alignSearch prev curr).bestY)
        ∧ (∀ o ∈ windowOffsets,
            alignDiff prev curr (alignSearch prev curr).bestX (alignSearch prev curr).bestY
              ≤ alignDiff prev curr o.1 o.2)
        ∧ ∀ j : ℕ, ∀ hj : j < windowOffsets.length, j < k →
            alignDiff prev curr (alignSearch prev curr).bestX (alignSearch prev curr).bestY
              < alignDiff prev curr (windowOffsets.get ⟨j, hj⟩).1
                  (windowOffsets.get ⟨j, hj⟩).2 := by
  have hlen : 0 < windowOffsets.length := by
    rw [windowOffsets_length]
    norm_num
  obtain ⟨k, hk, heq, hbef, hall⟩ :=
    foldl_scanStep_firstMin _ h (fun o => alignDiff prev curr o.1 o.2) windowOffsets hlen
  have hsearch : alignSearch prev curr
      = ⟨(windowOffsets.get ⟨k, hk⟩).1, (windowOffsets.get ⟨k, hk⟩).2,
          some (alignDiff prev curr (windowOffsets.get ⟨k, hk⟩).1
            (windowOffsets.get ⟨k, hk⟩).2)⟩ := by
    rw [alignSearch]
    exact heq
  refine ⟨k, hk, ?_, ?_, ?_, ?_⟩
  · rw [hsearch]
  · rw [hsearch]
  · intro o ho
    rw [hsearch]
    exact hall o ho
  · intro j hj hjk
    rw [hsearch]
    exact hbef j hj hjk

/-- A solid 64x64 frame downsamples to the full 128x128 alignment
resolution (cropH = 38.4, ratio = 128/38.4, round(38.4 * ratio) = 128). -/
lemma solid64_resize_height :
    (resizeAndCropImageData (solidFrame 64 64 128) ALIGNMENT_DOWNSAMPLE).height = 128 := by
  norm_num [resizeAndCropImageData, cropRatio, solidFrame, ALIGNMENT_DOWNSAMPLE]
  rfl

/-- At downsampled height 128 the padded 2-subsampled grid has 22*22
samples per offset. -/
lemma alignCount_128 : alignCount 128 = 484 := by decide

/-- Witness for the scan-order theorem: two identical solid 64x64 frames
have a nonempty sample grid, and the theorem applies. -/
theorem alignSearch_first_minimum_witness :
    0 < alignCount (resizeAndCropImageData (solidFrame 64 64 128)
        ALIGNMENT_DOWNSAMPLE).height
    ∧ ∃ k : ℕ, ∃ hk : k < windowOffsets.length,
      ((alignSearch (solidFrame 64 64 128) (solidFrame 64 64 128)).bestX,
          (alignSearch (solidFrame 64 64 128) (solidFrame 64 64 128)).bestY)
          = windowOffsets.get ⟨k, hk⟩
        ∧ (alignSearch (solidFrame 64 64 128) (solidFrame 64 64 128)).minDiff
            = some (alignDiff (solidFrame 64 64 128) (solidFrame 64 64 128)
                (alignSearch (solidFrame 64 64 128) (solidFrame 64 64 128)).bestX
                (alignSearch (solidFrame 64 64 128) (solidFrame 64 64 128)).bestY)
        ∧ (∀ o ∈ windowOffsets,
            alignDiff (solidFrame 64 64 128) (solidFrame 64 64 128)
                (alignSearch (solidFrame 64 64 128) (solidFrame 64 64 128)).bestX
                (alignSearch (solidFrame 64 64 128) (solidFrame 64 64 128)).bestY
              ≤ alignDiff (solidFrame 64 64 128) (solidFrame 64 64 128) o.1 o.2)
        ∧ ∀ j : ℕ, ∀ hj : j < windowOffsets.length, j < k →
            alignDiff (solidFrame 64 64 128) (solidFrame 64 64 128)
                (alignSearch (solidFrame 64 64 128) (solidFrame 64 64 128)).bestX
                (alignSearch (solidFrame 64 64 128) (solidFrame 64 64 128)).bestY
              < alignDiff (solidFrame 64 64 128) (solidFrame 64 64 128)
                  (windowOffsets.get ⟨j, hj⟩).1 (windowOffsets.get ⟨j, hj⟩).2 := by
  have hcount : 0 < alignCount (resizeAndCropImageData (solidFrame 64 64 128)
      ALIGNMENT_DOWNSAMPLE).height := by
    rw [solid64_resize_height, alignCount_128]
    norm_num
  exact ⟨hcount, alignSearch_first_minimum _ _ hcount⟩

/-- Witness for the degenerate-height theorem: a 1280x720 frame downsamples
to height 72 = round(720*0.6 * 128/768), below the 84 needed to fit the
padding, so alignment returns (0, 0) with confidence 0. -/
theorem alignFrames_degenerate_height_witness :
    ((resizeAndCropImageData (solidFrame 1280 720 7) ALIGNMENT_DOWNSAMPLE).height
      ≤ 2 * (SEARCH_WINDOW + 2))
    ∧ (alignCount (resizeAndCropImageData (solidFrame 1280 720 7)
        ALIGNMENT_DOWNSAMPLE).height = 0
      ∧ (alignFrames (solidFrame 1280 720 7) (solidFrame 1280 720 9)).x = 0
      ∧ (alignFrames (solidFrame 1280 720 7) (solidFrame 1280 720 9)).y = 0
      ∧ (alignFrames (solidFrame 1280 720 7) (solidFrame 1280 720 9)).confidence = 0) := by
  have hh : (resizeAndCropImageData (solidFrame 1280 720 7) ALIGNMENT_DOWNSAMPLE).height
      = 72 := by
    norm_num [resizeAndCropImageData, cropRatio, solidFrame, ALIGNMENT_DOWNSAMPLE]
    rfl
  have hle : (resizeAndCropImageData (solidFrame 1280 720 7) ALIGNMENT_DOWNSAMPLE).height
      ≤ 2 * (SEARCH_WINDOW + 2) := by
    rw [hh, SEARCH_WINDOW]
    norm_num
  exact ⟨hle, alignFrames_degenerate_height _ _ hle⟩

/-! ### Evaluation of the pipeline on a solid 64x64 gray frame (claim C1) -/

/-- Literal-width restatement of solid64_resize_height. -/
lemma solid64_resize_height128 :
    (resizeAndCropImageData (solidFrame 64 64 128) 128).height = 128 :=
  solid64_resize_height

/-- The resize keeps a channel-constant frame channel-constant (any
resampling filter would; the modelled point sampling trivially does). -/
lemma solid64_resize_data (b : ℕ) :
    (resizeAndCropImageData (solidFrame 64 64 128) 128).data b
      = if b % 4 = 3 then 255 else 128 := by
  simp only [resizeAndCropImageData, solidFrame]
  have hmod : ∀ K : ℕ, (K * 4 + b % 4) % 4 = b % 4 := by omega
  rw [hmod]

/-- Grayscale of the downsampled solid frame: 0.299*128 + 0.587*128 +
0.114*128 = 128 exactly. -/
lemma solid64_gray (i : ℕ) :
    toGrayscale (resizeAndCropImageData (solidFrame 64 64 128) 128) i = 128 := by
  simp only [toGrayscale]
  rw [solid64_resize_data, solid64_resize_data, solid64_resize_data]
  have h0 : i * 4 % 4 = 0 := by omega
  have h1 : (i * 4 + 1) % 4 = 1 := by omega
  have h2 : (i * 4 + 2) % 4 = 2 := by omega
  rw [h0, h1, h2]
  norm_num [toUint8]
  rfl

/-- Blur of the constant-128 grayscale buffer: 128 at interior pixels
(sum of nine 128s divided by 9). -/
lemma solid64_blur_interior (idx : ℕ) (h1 : 1 ≤ idx % 128) (h2 : idx % 128 < 127)
    (h3 : 1 ≤ idx / 128) (h4 : idx / 128 < 127) :
    fastBlur (toGrayscale (resizeAndCropImageData (solidFrame 64 64 128) 128))
      128 128 idx = 128 := by
  simp only [fastBlur]
  rw [if_pos (by omega : 1 ≤ idx % 128 ∧ idx % 128 < 128 - 1 ∧ 1 ≤ idx / 128
    ∧ idx / 128 < 128 - 1)]
  rw [solid64_gray, solid64_gray, solid64_gray, solid64_gray, solid64_gray,
    solid64_gray, solid64_gray, solid64_gray, solid64_gray]
  norm_num [toUint8]
  rfl

/-- The width of a resized frame is the requested target width. -/
lemma resize_width (src : ImageData) (w : ℕ) :
    (resizeAndCropImageData src w).width = w := rfl

/-- The Sobel edge map of the blurred solid frame vanishes at every pixel
whose eight neighbours are interior to the blur (coordinates in [2, 125]);
these are exactly the pixels the scoring grid can read. -/
lemma solid64_edge_zero (idx : ℕ) (h1 : 2 ≤ idx % 128) (h2 : idx % 128 ≤ 125)
    (h3 : 2 ≤ idx / 128) (h4 : idx / 128 ≤ 125) :
    alignEdge (solidFrame 64 64 128) idx = 0 := by
  simp only [alignEdge, ALIGNMENT_DOWNSAMPLE]
  rw [resize_width, solid64_resize_height128]
  simp only [computeEdgeMap]
  rw [if_pos (by omega : 1 ≤ idx % 128 ∧ idx % 128 < 128 - 1 ∧ 1 ≤ idx / 128
    ∧ idx / 128 < 128 - 1)]
  rw [solid64_blur_interior (idx - 128 - 1) (by omega) (by omega) (by omega) (by omega),
    solid64_blur_interior (idx - 128) (by omega) (by omega) (by omega) (by omega),
    solid64_blur_interior (idx - 128 + 1) (by omega) (by omega) (by omega) (by omega),
    solid64_blur_interior (idx - 1) (by omega) (by omega) (by omega) (by omega),
    solid64_blur_interior (idx + 1) (by omega) (by omega) (by omega) (by omega),
    solid64_blur_interior (idx + 128 - 1) (by omega) (by omega) (by omega) (by omega),
    solid64_blur_interior (idx + 128) (by omega) (by omega) (by omega) (by omega),
    solid64_blur_interior (idx + 128 + 1) (by omega) (by omega) (by omega) (by omega)]
  norm_num

/-- Membership in the sample grid of an extent-128 axis: positions are
42 + 2k with k < 22, hence lie in [42, 84]. -/
lemma mem_samplePositions_128 (v : ℕ) (h : v ∈ samplePositions 128) :
    42 ≤ v ∧ v ≤ 84 ∧ v % 2 = 0 := by
  simp only [samplePositions, List.mem_map, List.mem_range, sampleCount,
    SEARCH_WINDOW] at h
  obtain ⟨k, hk, rfl⟩ := h
  omega

/-- On two identical solid frames every candidate offset scores 0: each
sampled term reads two vanishing edge values. -/
lemma solid64_diff_zero (dx dy : ℤ) (hdx1 : -40 ≤ dx) (hdx2 : dx ≤ 40)
    (hdy1 : -40 ≤ dy) (hdy2 : dy ≤ 40) :
    alignDiff (solidFrame 64 64 128) (solidFrame 64 64 128) dx dy = 0 := by
  simp only [alignDiff, solid64_resize_height]
  apply List.sum_eq_zero
  intro a ha
  rw [List.mem_map] at ha
  obtain ⟨y, hy, rfl⟩ := ha
  apply List.sum_eq_zero
  intro b hb
  rw [List.mem_map] at hb
  obtain ⟨x, hx, rfl⟩ := hb
  obtain ⟨hy1, hy2, -⟩ := mem_samplePositions_128 y hy
  obtain ⟨hx1, hx2, -⟩ := mem_samplePositions_128 x hx
  simp only [ALIGNMENT_DOWNSAMPLE]
  rw [solid64_edge_zero (y * 128 + x) (by omega) (by omega) (by omega) (by omega),
    solid64_edge_zero (((y : ℤ) + dy).toNat * 128 + ((x : ℤ) + dx).toNat)
      (by omega) (by omega) (by omega) (by omega)]
  norm_num

/-- With every score equal (here 0), the strict-less-than scan keeps the
very first candidate: alignSearch on two identical solid frames reports
best offset (-40, -40) with minDiff 0. -/
lemma solid64_search :
    alignSearch (solidFrame 64 64 128) (solidFrame 64 64 128) = ⟨-40, -40, some 0⟩ := by
  have hcount : 0 < alignCount (resizeAndCropImageData (solidFrame 64 64 128)
      ALIGNMENT_DOWNSAMPLE).height := by
    rw [solid64_resize_height, alignCount_128]
    norm_num
  have hlen : 0 < windowOffsets.length := by
    rw [windowOffsets_length]
    norm_num
  have hzero : ∀ o ∈ windowOffsets,
      alignDiff (solidFrame 64 64 128) (solidFrame 64 64 128) o.1 o.2 = 0 := by
    intro o ho
    rw [mem_windowOffsets] at ho
    exact solid64_diff_zero o.1 o.2 ho.1 ho.2.1 ho.2.2.1 ho.2.2.2
  obtain ⟨k, hk, heq, hbef, -⟩ := foldl_scanStep_firstMin _ hcount
    (fun o => alignDiff (solidFrame 64 64 128) (solidFrame 64 64 128) o.1 o.2)
    windowOffsets hlen
  have hk0 : k = 0 := by
    by_contra hne
    have h0lt : 0 < k := Nat.pos_of_ne_zero hne
    have hcontr := hbef 0 hlen h0lt
    rw [hzero _ (windowOffsets.get_mem _ _), hzero _ (windowOffsets.get_mem _ _)] at hcontr
    exact lt_irrefl 0 hcontr
  subst hk0
  rw [alignSearch, heq, windowOffsets_get_zero hk]
  have hval : alignDiff (solidFrame 64 64 128) (solidFrame 64 64 128)
      ((-40 : ℤ), (-40 : ℤ)).1 ((-40 : ℤ), (-40 : ℤ)).2 = 0 := by
    exact solid64_diff_zero _ _ (by norm_num) (by norm_num) (by norm_num) (by norm_num)
  rw [hval]

lemma solid64_scores_xm :
    alignScores (solidFrame 64 64 128) (solidFrame 64 64 128) (-40 - 1) (-40) = none := by
  simp only [alignScores]
  rw [if_neg]
  rintro ⟨h, -⟩
  simp only [SEARCH_WINDOW] at h
  omega

lemma solid64_scores_xp :
    alignScores (solidFrame 64 64 128) (solidFrame 64 64 128) (-40 + 1) (-40) = some 0 := by
  simp only [alignScores]
  rw [if_pos, solid64_diff_zero (-40 + 1) (-40) (by norm_num) (by norm_num) (by norm_num)
    (by norm_num)]
  refine ⟨by simp only [SEARCH_WINDOW]; omega, by simp only [SEARCH_WINDOW]; omega,
    by simp only [SEARCH_WINDOW]; omega, by simp only [SEARCH_WINDOW]; omega, ?_⟩
  rw [solid64_resize_height, alignCount_128]
  norm_num

lemma solid64_scores_ym :
    alignScores (solidFrame 64 64 128) (solidFrame 64 64 128) (-40) (-40 - 1) = none := by
  simp only [alignScores]
  rw [if_neg]
  rintro ⟨-, -, h, -⟩
  simp only [SEARCH_WINDOW] at h
  omega

lemma solid64_scores_yp :
    alignScores (solidFrame 64 64 128) (solidFrame 64 64 128) (-40) (-40 + 1) = some 0 := by
  simp only [alignScores]
  rw [if_pos, solid64_diff_zero (-40) (-40 + 1) (by norm_num) (by norm_num) (by norm_num)
    (by norm_num)]
  refine ⟨by simp only [SEARCH_WINDOW]; omega, by simp only [SEARCH_WINDOW]; omega,
    by simp only [SEARCH_WINDOW]; omega, by simp only [SEARCH_WINDOW]; omega, ?_⟩
  rw [solid64_resize_height, alignCount_128]
  norm_num

lemma solid64_align_eval :
    (alignFrames (solidFrame 64 64 128) (solidFrame 64 64 128)).x = -12
    ∧ (alignFrames (solidFrame 64 64 128) (solidFrame 64 64 128)).y = -12
    ∧ (alignFrames (solidFrame 64 64 128) (solidFrame 64 64 128)).confidence = 1 := by
  have hs := solid64_search
  simp only [alignFrames]
  rw [hs]
  simp only [Option.elim]
  rw [solid64_scores_xm, solid64_scores_xp, solid64_scores_ym, solid64_scores_yp]
  simp only [Option.getD, solid64_resize_height, ALIGNMENT_DOWNSAMPLE, DRIFT_DEADBAND,
    cropRatio, solidFrame]
  norm_num
  have h0 : (0 : ℝ) ≤ Real.sqrt 288 := Real.sqrt_nonneg _
  have hsq : (Real.sqrt 288) ^ 2 = 288 := Real.sq_sqrt (by norm_num)
  nlinarith

/-- C1 counterexample: on two identical 64x64 solid-gray frames alignFrames
does NOT return offset (0, 0): all 6561 candidate offsets tie at score 0,
the strict-less-than scan keeps the first candidate (-40, -40), and after
rescaling by cropW/128 = 0.3 the returned x component is -12. -/
theorem alignFrames_solid64_offset_not_zero :
    (alignFrames (solidFrame 64 64 128) (solidFrame 64 64 128)).x ≠ 0 := by
  rw [solid64_align_eval.1]
  norm_num

/-- C1 (amended): on two identical 64x64 solid-gray frames alignFrames
returns confidence exactly 1 (minDiff = 0), but the offset is (-12, -12):
the all-zero edge maps make every candidate tie at score 0, the scan-order
tie-break selects (dx, dy) = (-40, -40), subpixel refinement leaves it
unchanged (zero curvature), and the 0.3 rescale yields -12; the magnitude
16.97 is far above the deadband, so no snap to zero occurs. -/
theorem alignFrames_solid64_result :
    (alignFrames (solidFrame 64 64 128) (solidFrame 64 64 128)).x = -12
    ∧ (alignFrames (solidFrame 64 64 128) (solidFrame 64 64 128)).y = -12
    ∧ (alignFrames (solidFrame 64 64 128) (solidFrame 64 64 128)).confidence = 1 :=
  solid64_align_eval

/-- C9: computeSharpnessMap assigns to each interior pixel (1 <= x <= w-2,
1 <= y <= h-2) the value sqrt(gh*gh + gv*gv), where gh is the absolute
difference of the red-channel bytes of the left and right neighbour pixels
and gv the absolute difference of the red-channel bytes of the pixels above
and below; every border pixel gets exactly 0. -/
theorem computeSharpnessMap_interior_and_border (pixels : ℕ → ℕ) (width height x y : ℕ) :
    (1 ≤ x → x ≤ width - 2 → 1 ≤ y → y ≤ height - 2 →
      computeSharpnessMap pixels width height (y * width + x)
        = Real.sqrt
            (((|(pixels ((y * width + (x - 1)) * 4) : ℤ)
                  - (pixels ((y * width + (x + 1)) * 4) : ℤ)| : ℤ) : ℝ)
                * ((|(pixels ((y * width + (x - 1)) * 4) : ℤ)
                  - (pixels ((y * width + (x + 1)) * 4) : ℤ)| : ℤ) : ℝ)
              + ((|(pixels (((y - 1) * width + x) * 4) : ℤ)
                  - (pixels (((y + 1) * width + x) * 4) : ℤ)| : ℤ) : ℝ)
                * ((|(pixels (((y - 1) * width + x) * 4) : ℤ)
                  - (pixels (((y + 1) * width + x) * 4) : ℤ)| : ℤ) : ℝ)))
    ∧ ((x = 0 ∨ x = width - 1 ∨ y = 0 ∨ y = height - 1) → x < width → y < height →
      computeSharpnessMap pixels width height (y * width + x) = 0) := by
  constructor
  · intro hx1 hx2 hy1 hy2
    have hw : 3 ≤ width := by omega
    have hxw : x < width := by omega
    have hmod : (y * width + x) % width = x := by
      rw [Nat.mul_comm y width, Nat.mul_add_mod, Nat.mod_eq_of_lt hxw]
    have hdiv : (y * width + x) / width = y := by
      rw [Nat.add_comm, Nat.add_mul_div_right _ _ (by omega : 0 < width),
        Nat.div_eq_of_lt hxw, Nat.zero_add]
    simp only [computeSharpnessMap, hmod, hdiv]
    rw [if_pos (by omega)]
    have hyw : width ≤ y * width := Nat.le_mul_of_pos_left width (by omega)
    have hy' : (y + 1) * width = y * width + width := by ring
    have hy'' : (y - 1) * width = y * width - width := Nat.sub_one_mul y width
    have e1 : (y * width + x) * 4 - 4 = (y * width + (x - 1)) * 4 := by omega
    have e2 : (y * width + x) * 4 + 4 = (y * width + (x + 1)) * 4 := by omega
    have e3 : (y * width + x) * 4 - width * 4 = ((y - 1) * width + x) * 4 := by
      rw [hy'']
      omega
    have e4 : (y * width + x) * 4 + width * 4 = ((y + 1) * width + x) * 4 := by
      rw [hy']
      omega
    rw [e1, e2, e3, e4]
  · intro hb hxw hyh
    have hmod : (y * width + x) % width = x := by
      rw [Nat.mul_comm y width, Nat.mul_add_mod, Nat.mod_eq_of_lt hxw]
    have hdiv : (y * width + x) / width = y := by
      rw [Nat.add_comm, Nat.add_mul_div_right _ _ (by omega : 0 < width),
        Nat.div_eq_of_lt hxw, Nat.zero_add]
    simp only [computeSharpnessMap, hmod, hdiv]
    rw [if_neg (by omega)]

/-- C6: debug mode changes colours only.  The sharpness map returned with
debug = true is definitionally the one returned with debug = false (the
sharpness writes never consult debugMode), and the output bytes agree with
the non-debug run except that every pixel taken under rule 3 and every
pixel retained under rule 5 (old sharp, new did not win) is rendered as
exactly (255, 0, 255, 255). -/
theorem mergeFocusStack_debug_effect (acc : ImageData) (accS : ℕ → ℝ) (new : ImageData)
    (ox oy sens thr : ℝ) :
    (mergeFocusStack acc accS new ox oy sens thr true).sharpness
        = (mergeFocusStack acc accS new ox oy sens thr false).sharpness
    ∧ ∀ b : ℕ,
        (mergeFocusStack acc accS new ox oy sens thr true).data b
          = if mergeCase acc accS new ox oy sens thr (b / 4) = 3
                ∨ mergeCase acc accS new ox oy sens thr (b / 4) = 5 then
              (if b % 4 = 1 then 0 else 255)
            else (mergeFocusStack acc accS new ox oy sens thr false).data b := by
  constructor
  · rfl
  · intro b
    simp only [mergeFocusStack]
    by_cases h3 : mergeCase acc accS new ox oy sens thr (b / 4) = 3
    · simp [h3]
    · by_cases h5 : mergeCase acc accS new ox oy sens thr (b / 4) = 5
      · simp [h3, h5]
      · by_cases h4 : mergeCase acc accS new ox oy sens thr (b / 4) = 4
        · simp [h3, h4, h5]
        · simp [h3, h4, h5]

/-- A row-major coordinate pair in range gives a flat index in range. -/
lemma flatIdx_lt (a b w h : ℕ) (ha : a < h) (hb : b < w) : a * w + b < w * h := by
  calc a * w + b < a * w + w := by omega
    _ = (a + 1) * w := by ring
    _ ≤ h * w := Nat.mul_le_mul_right w ha
    _ = w * h := Nat.mul_comm h w

/-- C5 (amended): if every accumulator sharpness value and every computed
sharpness value of the new frame is strictly below the threshold, AND the
rounded sampling position of every pixel lands inside the frame (mergeCase
is never 0, e.g. at offset (0,0)), then every merged pixel has alpha byte 0
and sharpness 0.  The in-bounds hypothesis is necessary: out-of-bounds
pixels pass the accumulator through unchanged (see the counterexample). -/
theorem mergeFocusStack_transparent (acc : ImageData) (accS : ℕ → ℝ) (new : ImageData)
    (ox oy sens thr : ℝ) (debug : Bool)
    (hacc : ∀ t, t < acc.width * acc.height → accS t < thr)
    (hnew : ∀ t, t < acc.width * acc.height →
      computeSharpnessMap new.data acc.width acc.height t < thr)
    (hin : ∀ t, t < acc.width * acc.height →
      mergeCase acc accS new ox oy sens thr t ≠ 0) :
    ∀ t, t < acc.width * acc.height →
      (mergeFocusStack acc accS new ox oy sens thr debug).sharpness t = 0
      ∧ (mergeFocusStack acc accS new ox oy sens thr debug).data (t * 4 + 3) = 0 := by
  intro t ht
  have hcase : mergeCase acc accS new ox oy sens thr t = 4 := by
    have hne := hin t ht
    simp only [mergeCase] at hne ⊢
    split_ifs at hne ⊢ with h1 h2 h3
    · -- rule 3 fired: contradiction, the sampled new sharpness is below thr
      exfalso
      obtain ⟨hx0, hxw, hy0, hyh, -⟩ := h1
      have hidx : (round ((↑(t / acc.width) : ℝ) + oy)).toNat * acc.width
          + (round ((↑(t % acc.width) : ℝ) + ox)).toNat < acc.width * acc.height := by
        apply flatIdx_lt
        · omega
        · omega
      have := hnew _ hidx
      linarith [h2.1]
    · -- rule 5 would need thr < accS t, contradicting hacc
      exfalso
      have := hacc t ht
      linarith
    · rfl
    · exact absurd rfl hne
  constructor
  · simp only [mergeFocusStack, hcase]
    norm_num
  · have hq : (t * 4 + 3) / 4 = t := by omega
    have hr : (t * 4 + 3) % 4 = 3 := by omega
    simp only [mergeFocusStack, hq, hr, hcase]
    norm_num

/-- Exhaustive description of the merge decision at one pixel: rule 3 with
its guard, rule 4 with the old value not sharp, rule 5 with the old value
sharp, or out-of-bounds pass-through. -/
lemma mergeCase_spec (acc : ImageData) (accS : ℕ → ℝ) (new : ImageData)
    (ox oy sens thr : ℝ) (t : ℕ) :
    (mergeCase acc accS new ox oy sens thr t = 3
        ∧ thr < computeSharpnessMap new.data acc.width acc.height (mergeSrcIdx acc ox oy t)
        ∧ (accS t + sens
              < computeSharpnessMap new.data acc.width acc.height (mergeSrcIdx acc ox oy t)
            ∨ ¬ thr < accS t))
    ∨ (mergeCase acc accS new ox oy sens thr t = 4 ∧ ¬ thr < accS t)
    ∨ (mergeCase acc accS new ox oy sens thr t = 5 ∧ thr < accS t)
    ∨ mergeCase acc accS new ox oy sens thr t = 0 := by
  simp only [mergeCase, mergeSrcIdx]
  split_ifs with h1 h2 h3
  · exact Or.inl ⟨rfl, h2⟩
  · exact Or.inr (Or.inr (Or.inl ⟨rfl, h3⟩))
  · exact Or.inr (Or.inl ⟨rfl, h3⟩)
  · exact Or.inr (Or.inr (Or.inr rfl))

/-- Under rule 3 the merged sharpness is the sampled new sharpness. -/
lemma mergeSharpness_case3 (acc : ImageData) (accS : ℕ → ℝ) (new : ImageData)
    (ox oy sens thr : ℝ) (debug : Bool) (t : ℕ)
    (h : mergeCase acc accS new ox oy sens thr t = 3) :
    (mergeFocusStack acc accS new ox oy sens thr debug).sharpness t
      = computeSharpnessMap new.data acc.width acc.height (mergeSrcIdx acc ox oy t) := by
  simp only [mergeFocusStack, h]
  norm_num

/-- Under rule 4 the merged sharpness is zeroed. -/
lemma mergeSharpness_case4 (acc : ImageData) (accS : ℕ → ℝ) (new : ImageData)
    (ox oy sens thr : ℝ) (debug : Bool) (t : ℕ)
    (h : mergeCase acc accS new ox oy sens thr t = 4) :
    (mergeFocusStack acc accS new ox oy sens thr debug).sharpness t = 0 := by
  simp only [mergeFocusStack, h]
  norm_num

/-- Under rule 5 and out-of-bounds the accumulator sharpness is kept. -/
lemma mergeSharpness_caseKeep (acc : ImageData) (accS : ℕ → ℝ) (new : ImageData)
    (ox oy sens thr : ℝ) (debug : Bool) (t : ℕ)
    (h3 : mergeCase acc accS new ox oy sens thr t ≠ 3)
    (h4 : mergeCase acc accS new ox oy sens thr t ≠ 4) :
    (mergeFocusStack acc accS new ox oy sens thr debug).sharpness t = accS t := by
  simp only [mergeFocusStack, h3, h4]
  norm_num [h3, h4]

/-- C10 (amended): for sensitivity >= 0 and threshold >= 0, at every pixel
the merged sharpness is either 0 or at least the accumulator sharpness; it
is 0 only when the accumulator sharpness was at most the threshold; and a
pixel whose accumulated sharpness exceeds the threshold never decreases.
The threshold >= 0 hypothesis is necessary (see the counterexample). -/
theorem mergeFocusStack_sharpness_monotone (acc : ImageData) (accS : ℕ → ℝ)
    (new : ImageData) (ox oy sens thr : ℝ) (debug : Bool)
    (hs : 0 ≤ sens) (ht : 0 ≤ thr) : ∀ t : ℕ,
      ((mergeFocusStack acc accS new ox oy sens thr debug).sharpness t = 0
        ∨ accS t ≤ (mergeFocusStack acc accS new ox oy sens thr debug).sharpness t)
      ∧ ((mergeFocusStack acc accS new ox oy sens thr debug).sharpness t = 0
          → accS t ≤ thr)
      ∧ (thr < accS t
          → accS t ≤ (mergeFocusStack acc accS new ox oy sens thr debug).sharpness t) := by
  intro t
  rcases mergeCase_spec acc accS new ox oy sens thr t with
    ⟨hk, hsharp, hdisj⟩ | ⟨hk, hold⟩ | ⟨hk, hold⟩ | hk
  · rw [mergeSharpness_case3 acc accS new ox oy sens thr debug t hk]
    refine ⟨Or.inr ?_, ?_, ?_⟩
    · rcases hdisj with hgt | hle
      · linarith
      · have := le_of_not_lt hle
        linarith
    · intro h0
      rw [h0] at hsharp
      linarith
    · intro hacc
      rcases hdisj with hgt | hle
      · linarith
      · exact absurd hacc hle
  · rw [mergeSharpness_case4 acc accS new ox oy sens thr debug t hk]
    exact ⟨Or.inl rfl, fun _ => le_of_not_lt hold, fun hc => absurd hc hold⟩
  · rw [mergeSharpness_caseKeep acc accS new ox oy sens thr debug t
      (by omega) (by omega)]
    refine ⟨Or.inr le_rfl, ?_, fun _ => le_rfl⟩
    intro h0
    rw [h0]
    exact ht
  · rw [mergeSharpness_caseKeep acc accS new ox oy sens thr debug t
      (by omega) (by omega)]
    refine ⟨Or.inr le_rfl, ?_, fun _ => le_rfl⟩
    intro h0
    rw [h0]
    exact ht

/-- C10 counterexample: with threshold -1 (the claim as stated quantifies
over every threshold), sensitivity 0 and a flat frame, the pixel (1,1) of a
3x3 merge takes rule 5 and returns sharpness 0 even though the accumulator
sharpness there (0) is strictly above the threshold, refuting "the output
sharpness is 0 only when the accumulator sharpness was at most threshold"
as stated. -/
theorem mergeFocusStack_sharpness_monotone_cex :
    (0 : ℝ) ≤ 0
    ∧ (mergeFocusStack (solidFrame 3 3 0) (fun _ => 0) (solidFrame 3 3 0) 0 0 0 (-1)
        false).sharpness 4 = 0
    ∧ ¬ ((fun _ => (0 : ℝ)) 4 ≤ (-1 : ℝ)) := by
  refine ⟨le_refl 0, ?_, by norm_num⟩
  have hv : computeSharpnessMap (fun b => if b % 4 = 3 then 255 else 0) 3 3 4 = 0 := by
    simp only [computeSharpnessMap]
    norm_num
  have hk : mergeCase (solidFrame 3 3 0) (fun _ => 0) (solidFrame 3 3 0) 0 0 0 (-1) 4
      = 5 := by
    simp only [mergeCase, solidFrame]
    norm_num
    rw [hv]
    norm_num
  rw [mergeSharpness_caseKeep (solidFrame 3 3 0) (fun _ => 0) (solidFrame 3 3 0)
    0 0 0 (-1) false 4 (by omega) (by omega)]

/-- Witness: the monotonicity theorem applied at a concrete merge with
sensitivity 0 and threshold 20. -/
theorem mergeFocusStack_sharpness_monotone_witness :
    ((0 : ℝ) ≤ 0 ∧ (0 : ℝ) ≤ 20)
    ∧ ∀ t : ℕ,
      ((mergeFocusStack (solidFrame 2 2 7) (fun _ => 0) (solidFrame 2 2 9)
          0 0 0 20 false).sharpness t = 0
        ∨ (fun _ => (0 : ℝ)) t ≤ (mergeFocusStack (solidFrame 2 2 7) (fun _ => 0)
            (solidFrame 2 2 9) 0 0 0 20 false).sharpness t)
      ∧ ((mergeFocusStack (solidFrame 2 2 7) (fun _ => 0) (solidFrame 2 2 9)
            0 0 0 20 false).sharpness t = 0 → (fun _ => (0 : ℝ)) t ≤ 20)
      ∧ ((20 : ℝ) < (fun _ => (0 : ℝ)) t
          → (fun _ => (0 : ℝ)) t ≤ (mergeFocusStack (solidFrame 2 2 7) (fun _ => 0)
              (solidFrame 2 2 9) 0 0 0 20 false).sharpness t) :=
  ⟨⟨le_refl 0, by norm_num⟩,
    mergeFocusStack_sharpness_monotone (solidFrame 2 2 7) (fun _ => 0) (solidFrame 2 2 9)
      0 0 0 20 false (le_refl 0) (by norm_num)⟩

/-- C5 counterexample: with offset (5, 0) on a 1x1 frame the single pixel
samples out of bounds, so the merge keeps the opaque accumulator pixel
(alpha byte 255, not 0) even though both sharpness hypotheses of the claim
hold, refuting the claim as stated. -/
theorem mergeFocusStack_transparent_cex :
    (∀ t, t < 1 → ((fun _ => (0 : ℝ)) t) < 20)
    ∧ (∀ t, t < 1 → computeSharpnessMap (solidFrame 1 1 5).data 1 1 t < 20)
    ∧ (mergeFocusStack (solidFrame 1 1 5) (fun _ => 0) (solidFrame 1 1 5) 5 0 0 20
        false).data 3 ≠ 0 := by
  refine ⟨by intro t ht; norm_num, ?_, ?_⟩
  · intro t ht
    have ht0 : t = 0 := by omega
    subst ht0
    simp only [computeSharpnessMap, solidFrame]
    norm_num
  · simp only [mergeFocusStack, mergeCase, solidFrame]
    norm_num

/-- Witness: the transparent-background theorem applied to a concrete 2x2
merge at offset (0, 0) with threshold 20. -/
theorem mergeFocusStack_transparent_witness :
    ((∀ t, t < (solidFrame 2 2 7).width * (solidFrame 2 2 7).height
        → (fun _ => (0 : ℝ)) t < 20)
      ∧ (∀ t, t < (solidFrame 2 2 7).width * (solidFrame 2 2 7).height
        → computeSharpnessMap (solidFrame 2 2 9).data (solidFrame 2 2 7).width
            (solidFrame 2 2 7).height t < 20)
      ∧ (∀ t, t < (solidFrame 2 2 7).width * (solidFrame 2 2 7).height
        → mergeCase (solidFrame 2 2 7) (fun _ => 0) (solidFrame 2 2 9) 0 0 0 20 t ≠ 0))
    ∧ ∀ t, t < (solidFrame 2 2 7).width * (solidFrame 2 2 7).height
        → (mergeFocusStack (solidFrame 2 2 7) (fun _ => 0) (solidFrame 2 2 9)
            0 0 0 20 false).sharpness t = 0
          ∧ (mergeFocusStack (solidFrame 2 2 7) (fun _ => 0) (solidFrame 2 2 9)
              0 0 0 20 false).data (t * 4 + 3) = 0 := by
  have h1 : ∀ t, t < (solidFrame 2 2 7).width * (solidFrame 2 2 7).height
      → (fun _ => (0 : ℝ)) t < 20 := by
    intro t ht
    norm_num
  have h2 : ∀ t, t < (solidFrame 2 2 7).width * (solidFrame 2 2 7).height
      → computeSharpnessMap (solidFrame 2 2 9).data (solidFrame 2 2 7).width
          (solidFrame 2 2 7).height t < 20 := by
    intro t ht
    simp only [computeSharpnessMap, solidFrame]
    rw [if_neg]
    · norm_num
    · rintro ⟨ha, hb, -⟩
      omega
  have h3 : ∀ t, t < (solidFrame 2 2 7).width * (solidFrame 2 2 7).height
      → mergeCase (solidFrame 2 2 7) (fun _ => 0) (solidFrame 2 2 9) 0 0 0 20 t ≠ 0 := by
    intro t ht
    simp only [solidFrame] at ht
    have hxr : round ((↑(t % 2) : ℝ) + 0) = ((t % 2 : ℕ) : ℤ) := by
      rw [add_zero, round_natCast]
    have hyr : round ((↑(t / 2) : ℝ) + 0) = ((t / 2 : ℕ) : ℤ) := by
      rw [add_zero, round_natCast]
    simp only [mergeCase, solidFrame]
    rw [if_pos]
    · split_ifs <;> norm_num
    · refine ⟨?_, ?_, ?_, ?_, ?_⟩
      · rw [hxr]
        omega
      · rw [hxr]
        omega
      · rw [hyr]
        omega
      · rw [hyr]
        omega
      · omega
  exact ⟨⟨h1, h2, h3⟩,
    mergeFocusStack_transparent (solidFrame 2 2 7) (fun _ => 0) (solidFrame 2 2 9)
      0 0 0 20 false h1 h2 h3⟩

/-- C3: neither operation signals an invalid-input error on mismatched
inputs; both silently produce a value.  getFingerprintSimilarity on a
longer fp1 reads past fp2 (undefined, hence NaN = none) and on a shorter
fp1 silently ignores the extra entries of fp2 (returning 1 here); and
mergeFocusStack never reads the recorded dimensions of the new frame at
all, so a mismatched new frame is silently sampled with the accumulator
dimensions (the two calls are definitionally equal). -/
theorem fingerprint_and_merge_silent_on_mismatch :
    getFingerprintSimilarity [7, 7] [7] = none
    ∧ getFingerprintSimilarity [7] [7, 9] = some 1
    ∧ ∀ (accImageData : ImageData) (accSharpness : ℕ → ℝ) (newData : ℕ → ℕ)
        (w2 h2 : ℕ) (ox oy sens thr : ℝ) (debug : Bool),
        mergeFocusStack accImageData accSharpness ⟨w2, h2, newData⟩ ox oy sens thr debug
          = mergeFocusStack accImageData accSharpness
              ⟨accImageData.width, accImageData.height, newData⟩ ox oy sens thr debug :=
  ⟨by decide, by norm_num [getFingerprintSimilarity, List.range_succ],
    fun _ _ _ _ _ _ _ _ _ _ => rfl⟩

/-- A concrete 3x3 probe frame whose red bytes around the centre pixel give
gh = |10 - 7| = 3 and gv = |2 - 6| = 4. -/
def sharpnessProbe : ℕ → ℕ := fun b =>
  if b = 12 then 10 else if b = 20 then 7 else if b = 4 then 2
  else if b = 28 then 6 else 0

/-- Witness for the sharpness-map theorem: both halves applied on the probe
frame, at the interior pixel (1, 1) and at the border pixel (0, 0). -/
theorem computeSharpnessMap_interior_and_border_witness :
    computeSharpnessMap sharpnessProbe 3 3 (1 * 3 + 1)
      = Real.sqrt
          (((|(sharpnessProbe ((1 * 3 + (1 - 1)) * 4) : ℤ)
                - (sharpnessProbe ((1 * 3 + (1 + 1)) * 4) : ℤ)| : ℤ) : ℝ)
              * ((|(sharpnessProbe ((1 * 3 + (1 - 1)) * 4) : ℤ)
                - (sharpnessProbe ((1 * 3 + (1 + 1)) * 4) : ℤ)| : ℤ) : ℝ)
            + ((|(sharpnessProbe (((1 - 1) * 3 + 1) * 4) : ℤ)
                - (sharpnessProbe (((1 + 1) * 3 + 1) * 4) : ℤ)| : ℤ) : ℝ)
              * ((|(sharpnessProbe (((1 - 1) * 3 + 1) * 4) : ℤ)
                - (sharpnessProbe (((1 + 1) * 3 + 1) * 4) : ℤ)| : ℤ) : ℝ))
    ∧ computeSharpnessMap sharpnessProbe 3 3 (0 * 3 + 0) = 0 :=
  ⟨(computeSharpnessMap_interior_and_border sharpnessProbe 3 3 1 1).1
      (by norm_num) (by norm_num) (by norm_num) (by norm_num),
    (computeSharpnessMap_interior_and_border sharpnessProbe 3 3 0 0).2
      (Or.inl rfl) (by norm_num) (by norm_num)⟩
